/-
Verification of the segmentation driver of video-auto-splitter
(src/blobserk.py and src/blobserkfolder.py).

Modelling conventions:
- Python floats are modelled as rationals (ℚ); the constants 0.2, 9.85, …
  appear as 1/5, 197/20, ….
- The external media toolchain (ffmpeg/ffprobe) is modelled as an oracle
  `cuts : ℕ → CutResult` giving, for each 1-based part index, either a
  non-zero exit (`CutResult.fail`) or the duration that the post-cut probe
  reports for the freshly written part (`CutResult.ok dur`; `dur = 0`
  models a swallowed probe failure, since `ffprobe_duration` /
  `duration` return 0.0 on any error).
- The while-loops are modelled as fuel-indexed recursive functions; running
  out of fuel is an observable outcome (`RunOutcome.outOfFuel`), so
  termination statements say the outcome is not `outOfFuel` for a given
  fuel bound.
-/
import Mathlib

set_option maxRecDepth 4000

/-! ### Size parsing (`human_to_bytes`, blobserk.py:20-30 / blobserkfolder.py:14-20)

`human_to_bytes` strips/lowers the input, removes spaces, matches it against
the regex `^([0-9]*\.?[0-9]+)\s*([kmgt]?b?)?$`, strips a trailing `b` from the
unit, looks the unit up in `{"":1, "k":1024, "m":1024^2, "g":1024^3,
"t":1024^4}` and returns `int(val * mult)`.  Failure to match (ValueError in
blobserk.py, blobserkfolder.py's KeyError cannot fire after the b-strip) is
modelled as `none`. -/

/-- Whitespace characters of Python's `str.strip` / regex `\s` (ASCII). -/
def isSpaceCh (c : Char) : Bool :=
  c == ' ' || c == Char.ofNat 9 || c == Char.ofNat 10 || c == Char.ofNat 13 ||
  c == Char.ofNat 11 || c == Char.ofNat 12

/-- Characters that can belong to the numeric group `[0-9]*\.?[0-9]+`. -/
def numChar (c : Char) : Bool := c.isDigit || c == '.'

/-- Value of a list of decimal digit characters. -/
def digitsVal (l : List Char) : ℕ := l.foldl (fun a c => 10 * a + (c.toNat - 48)) 0

/-- Parse the numeric group `[0-9]*\.?[0-9]+` (the whole list must match),
as Python `float` of the matched text, modelled exactly in ℚ. -/
def parseNum (l : List Char) : Option ℚ :=
  match l.dropWhile Char.isDigit with
  | [] =>
    if (l.takeWhile Char.isDigit).isEmpty then none
    else some ((digitsVal (l.takeWhile Char.isDigit) : ℚ))
  | c :: frac =>
    if c == '.' && !frac.isEmpty && frac.all Char.isDigit then
      some ((digitsVal (l.takeWhile Char.isDigit) : ℚ) +
            (digitsVal frac : ℚ) / ((10 : ℚ) ^ frac.length))
    else none

/-- Match the unit group `([kmgt]?b?)?`, strip the `b`, and look the result up
in the multiplier table `{"":1, "k":1024, "m":1024^2, "g":1024^3, "t":1024^4}`. -/
def unitMult : List Char → Option ℕ
  | [] => some 1
  | ['b'] => some 1
  | ['k'] => some 1024
  | ['k', 'b'] => some 1024
  | ['m'] => some (1024 ^ 2)
  | ['m', 'b'] => some (1024 ^ 2)
  | ['g'] => some (1024 ^ 3)
  | ['g', 'b'] => some (1024 ^ 3)
  | ['t'] => some (1024 ^ 4)
  | ['t', 'b'] => some (1024 ^ 4)
  | _ => none

/-- Python `str.strip()` on a character list (ASCII whitespace). -/
def stripChars (l : List Char) : List Char :=
  ((l.dropWhile isSpaceCh).reverse.dropWhile isSpaceCh).reverse

/-- `human_to_bytes` from blobserk.py:20-30 (blobserkfolder.py:14-20 is the
same function).  `none` models the raised ValueError. -/
def human_to_bytes (s : String) : Option ℤ :=
  let l := (stripChars (s.data.map Char.toLower)).filter (fun c => !(c == ' '))
  let np := l.takeWhile numChar
  let rest := (l.dropWhile numChar).dropWhile isSpaceCh
  match parseNum np, unitMult rest with
  | some v, some m => some (Int.floor (v * (m : ℚ)))
  | _, _ => none

lemma parseNum_nonneg (l : List Char) (v : ℚ) (h : parseNum l = some v) : 0 ≤ v := by
  unfold parseNum at h
  split at h
  · split_ifs at h
    obtain rfl : ((digitsVal (l.takeWhile Char.isDigit) : ℚ)) = v := by
      exact Option.some.inj h
    positivity
  · split_ifs at h
    obtain rfl : ((digitsVal (l.takeWhile Char.isDigit) : ℚ) +
        (digitsVal _ : ℚ) / ((10 : ℚ) ^ _)) = v := Option.some.inj h
    positivity

lemma human_to_bytes_nonneg (s : String) (n : ℤ) (h : human_to_bytes s = some n) :
    0 ≤ n := by
  simp only [human_to_bytes] at h
  split at h
  case _ v m hv hm =>
    obtain rfl : Int.floor (v * (m : ℚ)) = n := Option.some.inj h
    exact Int.floor_nonneg.mpr (mul_nonneg (parseNum_nonneg _ v hv) (by positivity))
  case _ => exact absurd h (by simp)

/-- Claim C6 (confirmed): the size parser uses the case-insensitive binary
unit table with an optional trailing `b`: `human_to_bytes "2G" = 2*1024^3`,
`human_to_bytes "1.5m" = 1572864`, `human_to_bytes "bogus"` is a parse error,
and the five units multiply by 1, 1024, 1024^2, 1024^3, 1024^4 (binary, not
decimal), case-insensitively and with an optional trailing `b`. -/
theorem C6_parse_size_examples :
    human_to_bytes (r"2G") = some (2 * 1024 ^ 3) ∧
    human_to_bytes (r"1.5m") = some 1572864 ∧
    human_to_bytes (r"bogus") = none ∧
    human_to_bytes (r"7") = some 7 ∧
    human_to_bytes (r"1k") = some 1024 ∧
    human_to_bytes (r"1m") = some (1024 ^ 2) ∧
    human_to_bytes (r"1g") = some (1024 ^ 3) ∧
    human_to_bytes (r"1t") = some (1024 ^ 4) ∧
    human_to_bytes (r"1KB") = some 1024 ∧
    human_to_bytes (r"3TB") = some (3 * 1024 ^ 4) := by
  refine ⟨?_, ?_, rfl, ?_, ?_, ?_, ?_, ?_, ?_, ?_⟩
  · have h : human_to_bytes (r"2G") =
        some (Int.floor (((2 : ℕ) : ℚ) * ((1024 ^ 3 : ℕ) : ℚ))) := rfl
    rw [h]; norm_num
  · have h : human_to_bytes (r"1.5m") =
        some (Int.floor ((((1 : ℕ) : ℚ) + ((5 : ℕ) : ℚ) / ((10 : ℚ) ^ 1)) *
          ((1024 ^ 2 : ℕ) : ℚ))) := rfl
    rw [h]; norm_num
  · have h : human_to_bytes (r"7") =
        some (Int.floor (((7 : ℕ) : ℚ) * ((1 : ℕ) : ℚ))) := rfl
    rw [h]; norm_num
  · have h : human_to_bytes (r"1k") =
        some (Int.floor (((1 : ℕ) : ℚ) * ((1024 : ℕ) : ℚ))) := rfl
    rw [h]; norm_num
  · have h : human_to_bytes (r"1m") =
        some (Int.floor (((1 : ℕ) : ℚ) * ((1024 ^ 2 : ℕ) : ℚ))) := rfl
    rw [h]; norm_num
  · have h : human_to_bytes (r"1g") =
        some (Int.floor (((1 : ℕ) : ℚ) * ((1024 ^ 3 : ℕ) : ℚ))) := rfl
    rw [h]; norm_num
  · have h : human_to_bytes (r"1t") =
        some (Int.floor (((1 : ℕ) : ℚ) * ((1024 ^ 4 : ℕ) : ℚ))) := rfl
    rw [h]; norm_num
  · have h : human_to_bytes (r"1KB") =
        some (Int.floor (((1 : ℕ) : ℚ) * ((1024 : ℕ) : ℚ))) := rfl
    rw [h]; norm_num
  · have h : human_to_bytes (r"3TB") =
        some (Int.floor (((3 : ℕ) : ℚ) * ((1024 ^ 4 : ℕ) : ℚ))) := rfl
    rw [h]; norm_num

/-- Claim C5 counterexample: the parser accepts the string `0` and returns
the byte count 0 without raising any error, so not every accepted string
yields a positive integer, and a value parsing to zero is not a fatal
configuration error (`0.5` likewise floors to 0 and is accepted). -/
theorem C5_zero_accepted_counterexample :
    human_to_bytes (r"0") = some 0 ∧ human_to_bytes (r"0.5") = some 0 ∧
    ¬ ((0 : ℤ) > 0) := by
  refine ⟨?_, ?_, by norm_num⟩
  · have h : human_to_bytes (r"0") =
        some (Int.floor (((0 : ℕ) : ℚ) * ((1 : ℕ) : ℚ))) := rfl
    rw [h]; norm_num
  · have h : human_to_bytes (r"0.5") =
        some (Int.floor ((((0 : ℕ) : ℚ) + ((5 : ℕ) : ℚ) / ((10 : ℚ) ^ 1)) *
          ((1 : ℕ) : ℚ))) := rfl
    rw [h]; norm_num

/-- Claim C5 (amended): every string the size parser accepts yields a
nonnegative integer byte count; text that does not match the size grammar is
rejected with an error (`none`); but a value parsing to zero, such as `0`,
is accepted and yields 0 rather than being a configuration error. -/
theorem C5_nonneg_amended :
    (∀ (s : String) (n : ℤ), human_to_bytes s = some n → 0 ≤ n) ∧
    human_to_bytes (r"bogus") = none ∧
    human_to_bytes (r"12x") = none ∧
    human_to_bytes (r"1..5") = none ∧
    human_to_bytes (r"0") = some 0 := by
  refine ⟨fun s n h => human_to_bytes_nonneg s n h, rfl, rfl, rfl, ?_⟩
  have h : human_to_bytes (r"0") =
      some (Int.floor (((0 : ℕ) : ℚ) * ((1 : ℕ) : ℚ))) := rfl
  rw [h]; norm_num

/-- Claim C5 witness: the amended theorem applied to the accepted input `2G`. -/
theorem C5_nonneg_amended_witness : (0 : ℤ) ≤ 2147483648 :=
  C5_nonneg_amended.1 (r"2G") 2147483648 (by
    have h : human_to_bytes (r"2G") =
        some (Int.floor (((2 : ℕ) : ℚ) * ((1024 ^ 3 : ℕ) : ℚ))) := rfl
    rw [h]; norm_num)

/-! ### The segmentation loops

`CutResult` is the observable behaviour of one external cut invocation plus
the post-cut probe: `fail` is a non-zero ffmpeg exit; `ok dur` is a zero exit
whose written part the swallow-all-errors probe reports as lasting `dur`
seconds (`dur = 0` when the probe itself failed). -/

/-- Result of one external cut invocation, indexed by 1-based part index. -/
inductive CutResult
  | fail
  | ok (dur : ℚ)
deriving DecidableEq

/-- Terminal shape of a segmentation loop.  `parts` lists the recorded
(surviving) part durations in order.  `exhausted parts deletedTail` is the
success exit (`deletedTail = true` when the loop ended by deleting a
degenerate ≤ 0.2 s tail part); `aborted` is the non-zero-ffmpeg-exit path
(sys.exit(3) in blobserk.py, the ERROR-print-break in blobserkfolder.py);
`outOfFuel` means the loop had not terminated within the given fuel. -/
inductive RunOutcome
  | aborted (parts : List ℚ)
  | exhausted (parts : List ℚ) (deletedTail : Bool)
  | outOfFuel (parts : List ℚ)
deriving DecidableEq

/-- The recorded part durations of an outcome. -/
def RunOutcome.parts : RunOutcome → List ℚ
  | .aborted l => l
  | .exhausted l _ => l
  | .outOfFuel l => l

/-- Record one more part duration at the front, keeping the outcome kind. -/
def RunOutcome.prepend (x : ℚ) : RunOutcome → RunOutcome
  | .aborted l => .aborted (x :: l)
  | .exhausted l b => .exhausted (x :: l) b
  | .outOfFuel l => .outOfFuel (x :: l)

/-- Whether the loop ran out of fuel (did not terminate within the bound). -/
def RunOutcome.isOutOfFuel : RunOutcome → Bool
  | .outOfFuel _ => true
  | _ => false

@[simp] lemma RunOutcome.parts_prepend (x : ℚ) (o : RunOutcome) :
    (o.prepend x).parts = x :: o.parts := by
  cases o <;> rfl

@[simp] lemma RunOutcome.isOutOfFuel_prepend (x : ℚ) (o : RunOutcome) :
    (o.prepend x).isOutOfFuel = o.isOutOfFuel := by
  cases o <;> rfl

/-- Outcome of a stream-copy segmentation run together with the trace of
external cut invocations: `requests` lists, in order, the `(part index,
start offset)` of every ffmpeg cut call that was issued. -/
structure CopyRes where
  outcome : RunOutcome
  requests : List (ℕ × ℚ)
deriving DecidableEq

/-- The stream-copy `while True` loop of `split_by_size_copy`
(blobserk.py:79-95) and `split_copy` (blobserkfolder.py:132-147), state
`(part index i, cursor offset off)` against source duration `d`:
cut at `off`; a non-zero exit aborts; probe the part; a duration ≤ 0.2 s
deletes the part and breaks (success); otherwise the part is recorded, the
cursor advances by exactly the probed duration, the index increments, and
the loop breaks when `off + 0.2 ≥ d`. -/
def copyLoop (cuts : ℕ → CutResult) (d : ℚ) : ℕ → ℕ → ℚ → CopyRes
  | 0, _, _ => ⟨ .outOfFuel [], [] ⟩
  | fuel + 1, i, off =>
    match cuts i with
    | .fail => ⟨ .aborted [], [(i, off)] ⟩
    | .ok cd =>
      if cd ≤ 1/5 then ⟨ .exhausted [] true, [(i, off)] ⟩
      else if d ≤ off + cd + 1/5 then ⟨ .exhausted [cd] false, [(i, off)] ⟩
      else
        let r := copyLoop cuts d fuel (i + 1) (off + cd)
        ⟨ r.outcome.prepend cd, (i, off) :: r.requests ⟩

/-- `split_copy` (blobserkfolder.py:126-147): probe the source duration and
skip the file (`none`, printing `Skip (no duration)`) when it is ≤ 0,
otherwise run the stream-copy loop from part index 1 and offset 0.0. -/
def split_copy (cuts : ℕ → CutResult) (d : ℚ) (fuel : ℕ) : Option CopyRes :=
  if d ≤ 0 then none else some (copyLoop cuts d fuel 1 0)

/-- The re-encode `while remaining > 0.2` loop of `main`
(blobserk.py:153-175), state `(part index i, remaining seconds rem)`:
while `rem > 0.2`, cut; a non-zero exit aborts (sys.exit(4)); otherwise the
part is recorded unconditionally — there is no ≤ 0.2 s check, no deletion —
and `rem` decreases by the probed duration. -/
def reencodeLoop (cuts : ℕ → CutResult) : ℕ → ℕ → ℚ → RunOutcome
  | 0, _, rem => if 1/5 < rem then .outOfFuel [] else .exhausted [] false
  | fuel + 1, i, rem =>
    if 1/5 < rem then
      match cuts i with
      | .fail => .aborted []
      | .ok actual => (reencodeLoop cuts fuel (i + 1) (rem - actual)).prepend actual
    else .exhausted [] false

/-- The approximate part duration of the re-encode plan
(blobserk.py:157-158): `max(1, int((size_limit_bytes * 8) / (v_bps + a_bps)))`. -/
def approx_part_seconds (size_limit_bytes v_bps a_bps : ℕ) : ℤ :=
  max 1 (Int.floor (((size_limit_bytes : ℚ) * 8) / ((v_bps : ℚ) + (a_bps : ℚ))))

/-! ### Stream-copy loop invariants -/

/-- Every recorded part of a stream-copy run has duration > 0.2 s. -/
lemma copyLoop_parts_gt (cuts : ℕ → CutResult) (d : ℚ) :
    ∀ (fuel i : ℕ) (off : ℚ), ∀ x ∈ (copyLoop cuts d fuel i off).outcome.parts,
      (1/5 : ℚ) < x := by
  intro fuel
  induction fuel with
  | zero =>
    intro i off x hx
    simp [copyLoop, RunOutcome.parts] at hx
  | succ m ih =>
    intro i off x hx
    rcases hcut : cuts i with _ | cd
    · simp [copyLoop, hcut, RunOutcome.parts] at hx
    · simp only [copyLoop, hcut] at hx
      split_ifs at hx with h1 h2
      · simp [RunOutcome.parts] at hx
      · simp [RunOutcome.parts] at hx
        subst hx
        linarith [not_le.mp h1]
      · simp only [RunOutcome.parts_prepend] at hx
        rcases List.mem_cons.mp hx with rfl | hx2
        · linarith [not_le.mp h1]
        · exact ih (i + 1) (off + cd) x hx2

/-- If at most `fuel` more seconds than `0.2*fuel` remain, the stream-copy
loop terminates within `fuel + 1` more iterations. -/
lemma copyLoop_not_outOfFuel (cuts : ℕ → CutResult) (d : ℚ) :
    ∀ (fuel i : ℕ) (off : ℚ), d ≤ off + (fuel : ℚ) * (1/5) →
      (copyLoop cuts d (fuel + 1) i off).outcome.isOutOfFuel = false := by
  intro fuel
  induction fuel with
  | zero =>
    intro i off hle
    rcases hcut : cuts i with _ | cd
    · simp [copyLoop, hcut, RunOutcome.isOutOfFuel]
    · simp only [copyLoop, hcut]
      split_ifs with h1 h2
      · rfl
      · rfl
      · exfalso
        have hcd : (1/5 : ℚ) < cd := not_le.mp h1
        have : d ≤ off := by
          simpa using hle
        exact h2 (by linarith)
  | succ m ih =>
    intro i off hle
    rcases hcut : cuts i with _ | cd
    · simp [copyLoop, hcut, RunOutcome.isOutOfFuel]
    · simp only [copyLoop, hcut]
      split_ifs with h1 h2
      · rfl
      · rfl
      · simp only [RunOutcome.isOutOfFuel_prepend]
        apply ih (i + 1) (off + cd)
        have hcd : (1/5 : ℚ) < cd := not_le.mp h1
        have hm : ((m : ℚ) + 1) * (1/5) = (m : ℚ) * (1/5) + 1/5 := by ring
        push_cast at hle
        linarith

/-- Claim C1 counterexample: in re-encode mode with source duration `D = 1`
and every cut reporting duration 0 (a swallowed probe failure), the loop is
still running after `ceil(D / 0.2) + 1 = 6` iterations — it never advances
`remaining`, yet records a 0-duration part on every iteration.  This refutes
the claim's coverage of re-encode mode. -/
theorem C1_reencode_counterexample :
    (reencodeLoop (fun _ => CutResult.ok 0) 6 1 1).isOutOfFuel = true ∧
    (reencodeLoop (fun _ => CutResult.ok 0) 6 1 1).parts = [0, 0, 0, 0, 0, 0] := by
  constructor <;>
    norm_num [reencodeLoop, RunOutcome.prepend, RunOutcome.isOutOfFuel, RunOutcome.parts]

/-- Claim C1 (amended): for every source duration `D > 0` and every sequence
of part durations returned by the cut collaborator (including zero durations
from swallowed probe failures), the STREAM-COPY loop terminates within
`ceil(D / 0.2) + 1` iterations, and every recorded (non-deleted) part — in
particular the final one — has duration strictly greater than 0.2 s.  The
re-encode loop has neither property (see the counterexample). -/
theorem C1_copy_terminates (cuts : ℕ → CutResult) (d : ℚ) (hd : 0 < d)
    (fuel : ℕ) (hf : (Int.ceil (5 * d)).toNat + 1 ≤ fuel) :
    (copyLoop cuts d fuel 1 0).outcome.isOutOfFuel = false ∧
    ∀ x ∈ (copyLoop cuts d fuel 1 0).outcome.parts, (1/5 : ℚ) < x := by
  refine ⟨?_, copyLoop_parts_gt cuts d fuel 1 0⟩
  rcases fuel with _ | m
  · omega
  · apply copyLoop_not_outOfFuel
    have hm : (Int.ceil (5 * d)).toNat ≤ m := by omega
    have hnn : (0 : ℤ) ≤ Int.ceil (5 * d) := by
      have : (0 : ℚ) < 5 * d := by linarith
      exact Int.ceil_nonneg this.le
    have h1 : Int.ceil (5 * d) ≤ (m : ℤ) := by
      have := Int.toNat_le.mp hm
      exact this
    have h2 : (5 : ℚ) * d ≤ ((Int.ceil (5 * d) : ℤ) : ℚ) := Int.le_ceil _
    have h3 : ((Int.ceil (5 * d) : ℤ) : ℚ) ≤ (m : ℚ) := by exact_mod_cast h1
    linarith

/-- Claim C1 witness: the amended theorem applied to a concrete run
(`D = 1`, every part lasting 1 s, fuel `ceil(5*1)+1 = 6`). -/
theorem C1_copy_terminates_witness :
    (copyLoop (fun _ => CutResult.ok 1) 1 6 1 0).outcome.isOutOfFuel = false :=
  (C1_copy_terminates (fun _ => CutResult.ok 1) 1 (by norm_num) 6 (by norm_num; decide)).1

/-- Claim C2 counterexample: in a re-encode run (`D = 1`) whose first cut's
post-cut probe reports 0.1 s ≤ 0.2 s, the 0.1 s part is NOT deleted and IS
counted in the produced-part sequence, and the loop does not end there — a
second cut is made.  This refutes the claim's coverage of re-encode mode. -/
theorem C2_reencode_counterexample :
    reencodeLoop (fun i => if i = 1 then CutResult.ok (1/10) else CutResult.ok 1) 3 1 1 =
      RunOutcome.exhausted [ 1/10, 1 ] false ∧
    ((1 : ℚ)/10) ≤ 1/5 := by
  constructor
  · norm_num [reencodeLoop, RunOutcome.prepend]
  · norm_num

/-- Claim C2 (amended): in STREAM-COPY mode, whenever the post-cut probe of a
newly written part reports a duration ≤ 0.2 s, that part file is deleted
(`deletedTail = true`), the loop ends in the Exhausted (success) state, and
the part is not counted: the iteration contributes no recorded part.  The
re-encode loop has no such check (see the counterexample). -/
theorem C2_copy_degenerate (cuts : ℕ → CutResult) (d : ℚ) (fuel i : ℕ)
    (off cd : ℚ) (h1 : cuts i = CutResult.ok cd) (h2 : cd ≤ 1/5) :
    copyLoop cuts d (fuel + 1) i off =
      ⟨ RunOutcome.exhausted [] true, [(i, off)] ⟩ := by
  simp only [copyLoop, h1]
  rw [if_pos h2]

/-- Claim C2 witness: the amended theorem applied to a concrete run whose
probe reports 0 s. -/
theorem C2_copy_degenerate_witness :
    copyLoop (fun _ => CutResult.ok 0) 1 1 1 0 =
      ⟨ RunOutcome.exhausted [] true, [(1, 0)] ⟩ :=
  C2_copy_degenerate (fun _ => CutResult.ok 0) 1 0 1 0 0 rfl (by norm_num)

/-- Claim C3 (confirmed): in the stream-copy loop, after a part is recorded
(probe duration > 0.2 s) the cursor advances by exactly that duration and the
loop terminates if and only if the new offset + 0.2 ≥ source duration
(first two conjuncts); and on a 10.0 s source whose first cut reports
9.85 s, exactly one part is recorded and no second cut is attempted — the
result does not depend on what the oracle would answer beyond part 1 (third
conjunct). -/
theorem C3_advance_and_stop :
    (∀ (cuts : ℕ → CutResult) (d : ℚ) (fuel i : ℕ) (off cd : ℚ),
      cuts i = CutResult.ok cd → (1/5 : ℚ) < cd → d ≤ off + cd + 1/5 →
        copyLoop cuts d (fuel + 1) i off =
          ⟨ RunOutcome.exhausted [cd] false, [(i, off)] ⟩) ∧
    (∀ (cuts : ℕ → CutResult) (d : ℚ) (fuel i : ℕ) (off cd : ℚ),
      cuts i = CutResult.ok cd → (1/5 : ℚ) < cd → off + cd + 1/5 < d →
        copyLoop cuts d (fuel + 1) i off =
          ⟨ (copyLoop cuts d fuel (i + 1) (off + cd)).outcome.prepend cd,
            (i, off) :: (copyLoop cuts d fuel (i + 1) (off + cd)).requests ⟩) ∧
    (∀ (rest : ℕ → CutResult) (fuel : ℕ),
      copyLoop (fun j => if j = 1 then CutResult.ok (197/20) else rest j)
          10 (fuel + 1) 1 0 =
        ⟨ RunOutcome.exhausted [197/20] false, [(1, 0)] ⟩) := by
  refine ⟨?_, ?_, ?_⟩
  · intro cuts d fuel i off cd hcut hgt hstop
    simp only [copyLoop, hcut]
    rw [if_neg (not_le.mpr hgt), if_pos hstop]
  · intro cuts d fuel i off cd hcut hgt hcont
    simp only [copyLoop, hcut]
    rw [if_neg (not_le.mpr hgt), if_neg (not_le.mpr hcont)]
  · intro rest fuel
    norm_num [copyLoop]

/-- Claim C3 witness: both loop-step conjuncts and the 10.0 s / 9.85 s
boundary scenario applied at concrete inputs. -/
theorem C3_advance_and_stop_witness :
    copyLoop (fun _ => CutResult.ok 1) 1 1 1 0 =
      ⟨ RunOutcome.exhausted [1] false, [(1, 0)] ⟩ ∧
    copyLoop (fun j => if j = 1 then CutResult.ok (197/20) else CutResult.fail)
        10 1 1 0 =
      ⟨ RunOutcome.exhausted [197/20] false, [(1, 0)] ⟩ :=
  ⟨ C3_advance_and_stop.1 (fun _ => CutResult.ok 1) 1 0 1 0 1 rfl (by norm_num)
      (by norm_num),
    C3_advance_and_stop.2.2 (fun _ => CutResult.fail) 0 ⟩

/-! ### Request-trace invariant of the stream-copy loop -/

/-- Request trace of the stream-copy loop, relative to a start index `i` and
start offset `off`: the k-th (0-based) issued cut request is for part index
`i + k` at offset `off` plus the sum of the first `k` recorded durations, and
the number of requests is the number of recorded parts or one more (the extra
request being the aborted or deleted-tail cut). -/
lemma copyLoop_requests_spec (cuts : ℕ → CutResult) (d : ℚ) :
    ∀ (fuel i : ℕ) (off : ℚ),
      (∀ k : ℕ, k < (copyLoop cuts d fuel i off).requests.length →
        (copyLoop cuts d fuel i off).requests[k]? =
          some (i + k, off + (((copyLoop cuts d fuel i off).outcome.parts).take k).sum)) ∧
      ((copyLoop cuts d fuel i off).outcome.parts).length ≤
        (copyLoop cuts d fuel i off).requests.length ∧
      (copyLoop cuts d fuel i off).requests.length ≤
        ((copyLoop cuts d fuel i off).outcome.parts).length + 1 := by
  intro fuel
  induction fuel with
  | zero =>
    intro i off
    refine ⟨?_, ?_, ?_⟩ <;> simp [copyLoop, RunOutcome.parts]
  | succ m ih =>
    intro i off
    rcases hcut : cuts i with _ | cd
    · simp only [copyLoop, hcut]
      refine ⟨?_, by simp [RunOutcome.parts], by simp [RunOutcome.parts]⟩
      intro k hk
      simp only [List.length_cons, List.length_nil] at hk
      interval_cases k
      simp [RunOutcome.parts]
    · simp only [copyLoop, hcut]
      split_ifs with h1 h2
      · refine ⟨?_, by simp [RunOutcome.parts], by simp [RunOutcome.parts]⟩
        intro k hk
        simp only [List.length_cons, List.length_nil] at hk
        interval_cases k
        simp [RunOutcome.parts]
      · refine ⟨?_, by simp [RunOutcome.parts], by simp [RunOutcome.parts]⟩
        intro k hk
        simp only [List.length_cons, List.length_nil] at hk
        interval_cases k
        simp [RunOutcome.parts]
      · obtain ⟨ihg, ihl1, ihl2⟩ := ih (i + 1) (off + cd)
        refine ⟨?_, ?_, ?_⟩
        · intro k hk
          rcases k with _ | n
          · simp [RunOutcome.parts_prepend]
          · simp only [List.length_cons] at hk
            have hk2 : n < (copyLoop cuts d m (i + 1) (off + cd)).requests.length := by
              omega
            simp only [List.getElem?_cons_succ, RunOutcome.parts_prepend,
              List.take_succ_cons, List.sum_cons]
            rw [ihg n hk2]
            simp only [Option.some.injEq, Prod.mk.injEq]
            exact ⟨by omega, by ring⟩
        · simp only [RunOutcome.parts_prepend, List.length_cons]
          omega
        · simp only [RunOutcome.parts_prepend, List.length_cons]
          omega

/-- Claim C9 (confirmed): implicit invariant of stream-copy segmentation —
every recorded part lasts strictly more than 0.2 s; the k-th (0-based) cut
request carries 1-based part index `k + 1` (contiguous, strictly increasing)
and start offset equal to the exact sum of the durations of the previously
recorded parts, starting from 0.0; and the number of requests exceeds the
number of recorded parts by at most one (the extra request being the deleted
degenerate tail or the failed cut), so the surviving part files are exactly
`part01..partNN` with no gaps. -/
theorem C9_parts_requests_invariant (cuts : ℕ → CutResult) (d : ℚ) (fuel : ℕ) :
    (∀ x ∈ (copyLoop cuts d fuel 1 0).outcome.parts, (1/5 : ℚ) < x) ∧
    (∀ k : ℕ, k < (copyLoop cuts d fuel 1 0).requests.length →
      (copyLoop cuts d fuel 1 0).requests[k]? =
        some (k + 1, (((copyLoop cuts d fuel 1 0).outcome.parts).take k).sum)) ∧
    ((copyLoop cuts d fuel 1 0).outcome.parts).length ≤
      (copyLoop cuts d fuel 1 0).requests.length ∧
    (copyLoop cuts d fuel 1 0).requests.length ≤
      ((copyLoop cuts d fuel 1 0).outcome.parts).length + 1 := by
  obtain ⟨hg, hl1, hl2⟩ := copyLoop_requests_spec cuts d fuel 1 0
  refine ⟨copyLoop_parts_gt cuts d fuel 1 0, ?_, hl1, hl2⟩
  intro k hk
  rw [hg k hk]
  simp [Nat.add_comm]

/-- Claim C9 witness: the invariant applied to a concrete two-part run. -/
theorem C9_parts_requests_invariant_witness :
    (copyLoop (fun _ => CutResult.ok 1) 2 5 1 0).requests[1]? =
      some (1 + 1, (((copyLoop (fun _ => CutResult.ok 1) 2 5 1 0).outcome.parts).take 1).sum) :=
  (C9_parts_requests_invariant (fun _ => CutResult.ok 1) 2 5).2.1 1
    (by norm_num [copyLoop, RunOutcome.prepend])

/-! ### Batch driver (blobserkfolder.py) -/

/-- 2-digit zero-padded part index, Python `{i:02d}` for nonnegative `i`. -/
def pad2 (i : ℕ) : String := if i < 10 then (r"0") ++ (toString i) else toString i

/-- Output part file name `{prefix}_part{NN}{ext}` (blobserk.py:82,
blobserkfolder.py:134 and 164).  The prefix is the source file's stem. -/
def partFileName (stem : String) (i : ℕ) (ext : String) : String :=
  stem ++ (r"_part") ++ (pad2 i) ++ ext

/-- The fixed video-extension allow-list of `is_video`
(blobserkfolder.py:32-34). -/
def videoExts : List String :=
  [ r".mp4", r".mov", r".m4v", r".mkv", r".avi", r".wmv", r".webm",
    r".ts", r".m2ts", r".flv", r".mpg", r".mpeg" ]

/-- Python `str.lower()` (ASCII). -/
def lowerStr (s : String) : String := String.mk (s.data.map Char.toLower)

/-- `is_video` (blobserkfolder.py:32-34): the file's extension, lowercased,
is in the allow-list. -/
def is_video (ext : String) : Bool := videoExts.contains (lowerStr ext)

/-- A directory entry as seen by `gather_files`: its path, its extension
(`Path.suffix`, including the dot) and whether it is a regular file. -/
structure FsEntry where
  path : String
  ext : String
  isFile : Bool
deriving DecidableEq

/-- `gather_files` (blobserkfolder.py:150-158) over the enumeration produced
by `rglob`/`iterdir` (the filesystem walk itself is external): keep exactly
the regular files whose extension passes `is_video`. -/
def gather_files (entries : List FsEntry) : List FsEntry :=
  entries.filter (fun e => e.isFile && is_video e.ext)

/-- One file's batch job: the source stem and extension, the contents of its
mirrored output directory, and the file's cut oracle and duration. -/
structure BatchJob where
  stem : String
  ext : String
  existing : List String
  cuts : ℕ → CutResult
  dur : ℚ

/-- The per-file outcome string of `process_one` (blobserkfolder.py:160-168):
either `Skip (exists): ...` or `Done: ...` — these are the only two forms. -/
inductive JobMsg
  | skipExists
  | done
deriving DecidableEq

/-- The first expected part `{prefix}_part01{ext}` (blobserkfolder.py:164). -/
def first_part (j : BatchJob) : String := partFileName j.stem 1 j.ext

/-- `process_one` (blobserkfolder.py:160-168): if `skip_existing` and the
first expected part already exists, return the Skip message without calling
`split_copy` (modelled by the outer `none`); otherwise run `split_copy` and
return the Done message unconditionally — `split_copy`'s outcome is
discarded. -/
def process_one (skip_existing : Bool) (fuel : ℕ) (j : BatchJob) :
    Option (Option CopyRes) × JobMsg :=
  if skip_existing && j.existing.contains (first_part j) then
    (none, JobMsg.skipExists)
  else
    (some (split_copy j.cuts j.dur fuel), JobMsg.done)

/-- The sequential (`jobs <= 1`) dispatch loop of `main`
(blobserkfolder.py:196-200): process every gathered file in order,
collecting each per-file message. -/
def runBatch (skip_existing : Bool) (fuel : ℕ) (jobs : List BatchJob) :
    List (Option (Option CopyRes) × JobMsg) :=
  jobs.map (process_one skip_existing fuel)

/-- Number of external cutter invocations made on behalf of one job
(an outer `none` means `split_copy` — the only site that invokes ffmpeg or
ffprobe — was never called; an inner `none` means the duration probe was ≤ 0
and the cut loop never started). -/
def cutInvocations : Option (Option CopyRes) × JobMsg → ℕ
  | (none, _) => 0
  | (some none, _) => 0
  | (some (some r), _) => r.requests.length

/-- Concrete batch jobs: two files whose cuts succeed and one whose cut
collaborator exits non-zero. -/
def jobOkA : BatchJob := ⟨ r"a", r".mp4", [], fun _ => CutResult.ok 1, 1 ⟩

/-- The failing job of the three-file batch scenario. -/
def jobFailB : BatchJob := ⟨ r"b", r".mp4", [], fun _ => CutResult.fail, 1 ⟩

/-- The third (succeeding) job of the three-file batch scenario. -/
def jobOkC : BatchJob := ⟨ r"c", r".mp4", [], fun _ => CutResult.ok 1, 1 ⟩

/-- Claim C4 counterexample: in a three-file batch where the middle file's
cut collaborator exits non-zero (its run ends `aborted`), all three files
are attempted, but every per-file outcome message is `Done` — the failing
file is NOT reported `Failed` (no such status exists; the failure is only an
error line printed inside the cutter). -/
theorem C4_done_counterexample :
    (runBatch false 3 [ jobOkA, jobFailB, jobOkC ]).map (fun x => x.2) =
      [ JobMsg.done, JobMsg.done, JobMsg.done ] ∧
    (runBatch false 3 [ jobOkA, jobFailB, jobOkC ]).map
        (fun x => x.1.map (fun y => y.map CopyRes.outcome)) =
      [ some (some (RunOutcome.exhausted [1] false)),
        some (some (RunOutcome.aborted [])),
        some (some (RunOutcome.exhausted [1] false)) ] := by
  constructor <;>
    norm_num [runBatch, process_one, split_copy, copyLoop, jobOkA, jobFailB,
      jobOkC, first_part, partFileName, pad2]

/-- Claim C4 (amended): one file's failure does not cancel or affect sibling
jobs — the batch maps over every discovered file and the k-th outcome is a
function of the k-th job alone — and every attempted (non-skipped) file is
reported `Done` regardless of whether its cuts succeeded: the failing file's
outcome message is also `Done`, not `Failed` (no Failed status exists). -/
theorem C4_isolation_amended (se : Bool) (fuel : ℕ) (jobs : List BatchJob) :
    (runBatch se fuel jobs).length = jobs.length ∧
    (∀ k : ℕ, (runBatch se fuel jobs)[k]? = (jobs[k]?).map (process_one se fuel)) ∧
    (∀ j : BatchJob, (se && j.existing.contains (first_part j)) = false →
      (process_one se fuel j).2 = JobMsg.done) := by
  refine ⟨by simp [runBatch], ?_, ?_⟩
  · intro k
    simp [runBatch, List.getElem?_map]
  · intro j h
    simp only [process_one]
    split_ifs with hc
    · rw [h] at hc
      exact absurd hc (by decide)
    · rfl

/-- Claim C4 witness: the amended theorem applied to the failing job of the
three-file batch. -/
theorem C4_isolation_amended_witness :
    (process_one false 3 jobFailB).2 = JobMsg.done :=
  (C4_isolation_amended false 3 [ jobOkA, jobFailB, jobOkC ]).2.2 jobFailB (by decide)

/-- Claim C8 (confirmed): with `skip-existing` enabled, a job whose first
expected part `{prefix}_part01{ext}` already exists in its mirrored output
directory is marked Skipped, `split_copy` — the only site that invokes the
external cutter or prober — is never called (outer `none`), zero cut
invocations are made, and hence no output file is created or modified. -/
theorem C8_skip_existing (fuel : ℕ) (j : BatchJob)
    (h : j.existing.contains (first_part j) = true) :
    process_one true fuel j = (none, JobMsg.skipExists) ∧
    cutInvocations (process_one true fuel j) = 0 := by
  have hmem : first_part j ∈ j.existing := by simpa using h
  constructor
  · simp [process_one, hmem]
  · simp [process_one, hmem, cutInvocations]

/-- A job whose first expected part file already exists. -/
def jobSkip : BatchJob :=
  ⟨ r"a", r".mp4", [ r"a_part01.mp4" ], fun _ => CutResult.ok 1, 1 ⟩

/-- Claim C8 witness: the theorem applied to a concrete job whose
`a_part01.mp4` already exists. -/
theorem C8_skip_existing_witness :
    process_one true 3 jobSkip = (none, JobMsg.skipExists) ∧
    cutInvocations (process_one true 3 jobSkip) = 0 :=
  C8_skip_existing 3 jobSkip (by decide)

/-- Claim C10 (confirmed): batch discovery selects exactly the regular files
whose extension, lowercased, belongs to the fixed 12-entry allow-list
{.mp4, .mov, .m4v, .mkv, .avi, .wmv, .webm, .ts, .m2ts, .flv, .mpg, .mpeg};
matching is case-insensitive (`.MP4` is discovered) and non-matching files
are never selected. -/
theorem C10_discovery_allowlist :
    (∀ (entries : List FsEntry) (e : FsEntry),
      e ∈ gather_files entries ↔ e ∈ entries ∧ (e.isFile && is_video e.ext) = true) ∧
    videoExts.length = 12 ∧
    is_video (r".MP4") = true ∧ is_video (r".Mkv") = true ∧
    is_video (r".WEBM") = true ∧ is_video (r".M2TS") = true ∧
    is_video (r".mp3") = false ∧ is_video (r".txt") = false ∧
    is_video (r"mp4") = false ∧ is_video (r".mp41") = false := by
  refine ⟨?_, by decide, by decide, by decide, by decide, by decide,
    by decide, by decide, by decide, by decide⟩
  intro entries e
  exact List.mem_filter

/-- Claim C7 counterexample: with size limit 1 byte and video+audio target
bitrates 8+8 bps, the exact value `limitBytes*8/targetBitrate = 1/2`, but the
duration passed to the cutter is `max(1, int(1/2)) = 1 ≠ 1/2`, refuting the
claimed equality. -/
theorem C7_not_exact_counterexample :
    approx_part_seconds 1 8 8 = 1 ∧
    ((approx_part_seconds 1 8 8 : ℤ) : ℚ) ≠ ((1 : ℚ) * 8) / ((8 : ℚ) + 8) := by
  constructor <;> norm_num [approx_part_seconds]

/-- Claim C7 (amended): for every positive size limit and positive combined
target bitrate (the sum of the video and audio target bitrates), the
re-encode plan's approximate part duration equals
`limitBytes*8/targetBitrate` rounded DOWN to an integer and clamped below at
1 — so whenever the floor is at least 1 it is within one second below the
exact value, but it is not the exact rational `limitBytes*8/targetBitrate`. -/
theorem C7_floor_clamped_amended (L v a : ℕ) (hL : 0 < L) (hb : 0 < v + a) :
    approx_part_seconds L v a =
      max 1 (Int.floor (((L : ℚ) * 8) / ((v : ℚ) + (a : ℚ)))) ∧
    (1 ≤ Int.floor (((L : ℚ) * 8) / ((v : ℚ) + (a : ℚ))) →
      ((approx_part_seconds L v a : ℤ) : ℚ) ≤ ((L : ℚ) * 8) / ((v : ℚ) + (a : ℚ)) ∧
      ((L : ℚ) * 8) / ((v : ℚ) + (a : ℚ)) < ((approx_part_seconds L v a : ℤ) : ℚ) + 1) := by
  refine ⟨rfl, ?_⟩
  intro h1
  have heq : approx_part_seconds L v a =
      Int.floor (((L : ℚ) * 8) / ((v : ℚ) + (a : ℚ))) := by
    unfold approx_part_seconds
    exact max_eq_right h1
  rw [heq]
  exact ⟨Int.floor_le _, Int.lt_floor_add_one _⟩

/-- Claim C7 witness: the amended theorem applied to limit 8 bytes and
bitrates 8+8 bps (exact value 4 s, floor 4, clamp inactive). -/
theorem C7_floor_clamped_amended_witness :
    ((approx_part_seconds 8 8 8 : ℤ) : ℚ) ≤ (((8 : ℕ) : ℚ) * 8) / (((8 : ℕ) : ℚ) + ((8 : ℕ) : ℚ)) ∧
    (((8 : ℕ) : ℚ) * 8) / (((8 : ℕ) : ℚ) + ((8 : ℕ) : ℚ)) < ((approx_part_seconds 8 8 8 : ℤ) : ℚ) + 1 :=
  (C7_floor_clamped_amended 8 8 8 (by norm_num) (by norm_num)).2 (by norm_num)
